import Mathlib

/-!
Verification of the `oet` calculation server (`src/oet/server_client/server.py`
and `src/oet/core/misc.py`) against its natural-language specification.

The Python code is shallowly embedded: each relevant Python function becomes a
pure Lean function over explicit state.  Python `int` is `Int` (arbitrary
precision), exceptions become explicit result constructors, and the filesystem,
the resident-memory measurement and the calculator backend's behaviour are
passed in as oracles.
-/

namespace Oet

/-! ## CoreLimiter (`server.py`, class `CoreLimiter`)

`acquire` / `release` run under one condition variable; we embed the state
`{total, available}` and model a single lock-protected call as a pure state
transition.  An `acquire` whose predicate `n <= available` does not yet hold
would wait on the condition variable; that is the `blocked` outcome, and a
trace-level step is only enabled once the predicate holds. -/

structure CoreLimiter where
  total : Int
  available : Int
deriving DecidableEq, Repr

/-- Embeds `CoreLimiter.__init__(total_cores)`: `total = available = int(total_cores)`. -/
def CoreLimiter.init (totalCores : Int) : CoreLimiter :=
  { total := totalCores, available := totalCores }

/-- Outcome of one `acquire` call: it either raises `ValueError` (`err`),
waits on the condition variable (`blocked`), or decrements and returns. -/
inductive AcquireOutcome where
  | ok
  | err
  | blocked
deriving DecidableEq, Repr

/-- Embeds `CoreLimiter.acquire(n)`:
if `n > self.total` raise `ValueError`; while `n > self.available` wait;
then `self.available -= n`.  The returned limiter is the state after the
call (unchanged when it raises or would wait). -/
def CoreLimiter.acquire (s : CoreLimiter) (n : Int) : AcquireOutcome × CoreLimiter :=
  if n > s.total then (.err, s)
  else if n > s.available then (.blocked, s)
  else (.ok, { s with available := s.available - n })

/-- Embeds `CoreLimiter.release(n)`:
`self.available += n; if self.available > self.total: self.available = self.total`. -/
def CoreLimiter.release (s : CoreLimiter) (n : Int) : CoreLimiter :=
  let a := s.available + n
  { s with available := if a > s.total then s.total else a }

/-! ### Trace semantics for sequences of acquire/release

A trace interleaves completed `acquire` and `release` calls.  The bookkeeping
list `out` records the demands of successful acquires that have not yet been
released; a `rel n` step is a release matching one outstanding acquire. -/

inductive Op where
  | acq (n : Int)
  | rel (n : Int)
deriving DecidableEq, Repr

/-- One trace step.  `acq n` is enabled when the call completes without
raising and without waiting; `rel n` is enabled when it matches an
outstanding acquired demand `n`. -/
def stepOp (s : CoreLimiter) (out : List Int) : Op → Option (CoreLimiter × List Int)
  | .acq n =>
    match s.acquire n with
    | (.ok, s1) => some (s1, n :: out)
    | (_, _) => none
  | .rel n =>
    if n ∈ out then some (s.release n, out.erase n) else none

/-- Run a list of operations from a state, failing if any step is disabled. -/
def runOps (s : CoreLimiter) (out : List Int) : List Op → Option (CoreLimiter × List Int)
  | [] => some (s, out)
  | op :: rest =>
    match stepOp s out op with
    | some (s1, out1) => runOps s1 out1 rest
    | none => none

/-- The budget invariant: the limiter accounts exactly for the outstanding
demands, every outstanding demand is nonnegative, and `available` is
nonnegative. -/
def BudgetInv (T : Int) (s : CoreLimiter) (out : List Int) : Prop :=
  s.total = T ∧ s.available + out.sum = T ∧ (∀ m ∈ out, 0 ≤ m) ∧ 0 ≤ s.available

theorem sum_erase_of_mem {n : Int} {out : List Int} (h : n ∈ out) :
    (out.erase n).sum = out.sum - n := by
  have hperm : List.Perm out (n :: out.erase n) := List.perm_cons_erase h
  have := hperm.sum_eq
  simp only [List.sum_cons] at this
  omega

theorem stepOp_inv {T : Int} {s : CoreLimiter} {out : List Int} {op : Op}
    {s1 : CoreLimiter} {out1 : List Int}
    (hinv : BudgetInv T s out)
    (hop : ∀ n, op = .acq n → 0 ≤ n ∧ n ≤ T)
    (hstep : stepOp s out op = some (s1, out1)) :
    BudgetInv T s1 out1 := by
  obtain ⟨htot, hsum, hnn, hav⟩ := hinv
  cases op with
  | acq n =>
    obtain ⟨hn0, hnT⟩ := hop n rfl
    unfold stepOp CoreLimiter.acquire at hstep
    by_cases h1 : n > s.total
    · simp [h1] at hstep
    · by_cases h2 : n > s.available
      · simp [h1, h2] at hstep
      · simp only [h1, if_false, h2, if_false] at hstep
        cases hstep
        refine ⟨htot, ?_, ?_, ?_⟩
        · simp only [List.sum_cons]; omega
        · intro m hm
          rcases List.mem_cons.mp hm with h | h
          · omega
          · exact hnn m h
        · simp only []; omega
  | rel n =>
    unfold stepOp at hstep
    by_cases hmem : n ∈ out
    · simp only [hmem, if_true, Option.some.injEq, Prod.mk.injEq] at hstep
      obtain ⟨hs1, hout1⟩ := hstep
      have hn0 : 0 ≤ n := hnn n hmem
      have herase : (out.erase n).sum = out.sum - n := sum_erase_of_mem hmem
      have heraseNN : 0 ≤ (out.erase n).sum := by
        apply List.sum_nonneg
        intro m hm
        exact hnn m (List.mem_of_mem_erase hm)
      have hnoclamp : ¬ (s.available + n > s.total) := by omega
      subst hs1 hout1
      unfold CoreLimiter.release
      refine ⟨htot, ?_, ?_, ?_⟩
      · simp only [hnoclamp, if_false]
        omega
      · intro m hm
        exact hnn m (List.mem_of_mem_erase hm)
      · simp only [hnoclamp, if_false]
        omega
    · simp [hmem] at hstep

theorem runOps_inv {T : Int} :
    ∀ (ops : List Op) (s : CoreLimiter) (out : List Int)
      (s1 : CoreLimiter) (out1 : List Int),
      BudgetInv T s out →
      (∀ n, Op.acq n ∈ ops → 0 ≤ n ∧ n ≤ T) →
      runOps s out ops = some (s1, out1) →
      BudgetInv T s1 out1 := by
  intro ops
  induction ops with
  | nil =>
    intro s out s1 out1 hinv _ hrun
    simp only [runOps, Option.some.injEq, Prod.mk.injEq] at hrun
    obtain ⟨h1, h2⟩ := hrun
    subst h1 h2
    exact hinv
  | cons op rest ih =>
    intro s out s1 out1 hinv hops hrun
    simp only [runOps] at hrun
    cases hstep : stepOp s out op with
    | none => rw [hstep] at hrun; cases hrun
    | some p =>
      obtain ⟨s2, out2⟩ := p
      rw [hstep] at hrun
      have hinv2 : BudgetInv T s2 out2 := by
        apply stepOp_inv hinv _ hstep
        intro n hn
        exact hops n (by rw [hn]; exact List.mem_cons_self _ _)
      exact ih s2 out2 s1 out1 hinv2
        (fun n hn => hops n (List.mem_cons_of_mem _ hn)) hrun

theorem BudgetInv.bounds {T : Int} {s : CoreLimiter} {out : List Int}
    (h : BudgetInv T s out) : 0 ≤ s.available ∧ s.available ≤ T := by
  obtain ⟨_, hsum, hnn, hav⟩ := h
  have : 0 ≤ out.sum := List.sum_nonneg hnn
  omega

/-- Claim C1: For a `CoreLimiter` constructed with total `T ≥ 0` and any executed
sequence of `acquire(n)`/`release(n)` calls where every acquire demand
satisfies `0 ≤ n ≤ T` and every release matches one outstanding acquire,
`0 ≤ available ≤ T` holds after every operation (in particular `release`
clamps at `T` rather than exceeding it), and once every successful acquire has
been matched by exactly one release (no outstanding demand remains),
`available = T`. -/
theorem coreLimiter_budget_conservation (T : Int) (hT : 0 ≤ T) (ops : List Op)
    (hops : ∀ n, Op.acq n ∈ ops → 0 ≤ n ∧ n ≤ T) :
    (∀ pre suf s out, ops = pre ++ suf →
      runOps (CoreLimiter.init T) [] pre = some (s, out) →
      0 ≤ s.available ∧ s.available ≤ T) ∧
    (∀ s, runOps (CoreLimiter.init T) [] ops = some (s, []) → s.available = T) := by
  have hinit : BudgetInv T (CoreLimiter.init T) [] := by
    refine ⟨rfl, by simp [CoreLimiter.init], by simp, ?_⟩
    simpa [CoreLimiter.init] using hT
  constructor
  · intro pre suf s out hsplit hrun
    have hpre : ∀ n, Op.acq n ∈ pre → 0 ≤ n ∧ n ≤ T := by
      intro n hn
      exact hops n (by rw [hsplit]; exact List.mem_append_left _ hn)
    exact (runOps_inv pre _ _ s out hinit hpre hrun).bounds
  · intro s hrun
    have hinv := runOps_inv ops _ _ s [] hinit hops hrun
    obtain ⟨_, hsum, _, _⟩ := hinv
    simpa using hsum

/-- Witness for C1 at `T = 2`, trace `acq 1, acq 2 (would block: skipped), ...`:
concretely the executable trace `[acq 1, acq 1, rel 1, rel 1]`. -/
theorem coreLimiter_budget_conservation_witness :
    (∀ pre suf s out,
        [Op.acq 1, Op.acq 1, Op.rel 1, Op.rel 1] = pre ++ suf →
        runOps (CoreLimiter.init 2) [] pre = some (s, out) →
        0 ≤ s.available ∧ s.available ≤ 2) ∧
    (∀ s, runOps (CoreLimiter.init 2) [] [Op.acq 1, Op.acq 1, Op.rel 1, Op.rel 1] =
        some (s, []) → s.available = 2) := by
  apply coreLimiter_budget_conservation 2 (by decide)
  intro n hn
  simp only [List.mem_cons, List.not_mem_nil, or_false, Op.acq.injEq,
    reduceCtorEq] at hn
  omega

/-- Claim C2: `acquire(n)` with `n > total` raises immediately (no waiting) and
leaves the limiter unchanged; and — in any state satisfying the data-model
invariant `available ≤ total` — `acquire(n)` with `n ≤ available` returns
without waiting having decremented `available` by exactly `n`. -/
theorem acquire_fail_fast (s : CoreLimiter) (n : Int) :
    (n > s.total → s.acquire n = (.err, s)) ∧
    (s.available ≤ s.total → n ≤ s.available →
      s.acquire n = (.ok, { s with available := s.available - n })) := by
  constructor
  · intro h
    unfold CoreLimiter.acquire
    simp [h]
  · intro hinv hn
    unfold CoreLimiter.acquire
    have h1 : ¬ n > s.total := by omega
    have h2 : ¬ n > s.available := by omega
    simp [h1, h2]

/-- Witness for C2: `total = 4, available = 3`; demand `5` errs with the state
unchanged, demand `3` succeeds and decrements to `0`. -/
theorem acquire_fail_fast_witness :
    (CoreLimiter.acquire ⟨4, 3⟩ 5 = (.err, ⟨4, 3⟩)) ∧
    (CoreLimiter.acquire ⟨4, 3⟩ 3 = (.ok, ⟨4, 0⟩)) :=
  ⟨(acquire_fail_fast ⟨4, 3⟩ 5).1 (by decide),
   (acquire_fail_fast ⟨4, 3⟩ 3).2 (by decide) (by decide)⟩

/-- Claim C10: `acquire` does not reject nonpositive demands: for every `k > 0`,
calling `acquire(-k)` on a limiter with `available = total ≥ 0` returns
immediately (outcome `ok`, no error, no waiting) and leaves `available`
strictly greater than `total`; only `release` clamps at `total`.  Hence the
bound `available ≤ total` depends on all acquire demands being nonnegative. -/
theorem acquire_negative_demand_breaks_bound (s : CoreLimiter) (k : Int)
    (hk : 0 < k) (hfull : s.available = s.total) (hT : 0 ≤ s.total) :
    (s.acquire (-k)).1 = .ok ∧ (s.acquire (-k)).2.available > s.total := by
  have h1 : ¬ (-k > s.total) := by omega
  have h2 : ¬ (-k > s.available) := by omega
  have hres : s.acquire (-k) = (.ok, { s with available := s.available - (-k) }) := by
    unfold CoreLimiter.acquire
    simp [h1, h2]
  rw [hres]
  exact ⟨rfl, by show s.available - (-k) > s.total; omega⟩

/-- Witness for C10: a fresh limiter with 2 cores; `acquire(-3)` succeeds and
leaves `available = 5 > 2`. -/
theorem acquire_negative_demand_breaks_bound_witness :
    ((CoreLimiter.init 2).acquire (-3)).1 = .ok ∧
    ((CoreLimiter.init 2).acquire (-3)).2.available > 2 :=
  acquire_negative_demand_breaks_bound (CoreLimiter.init 2) 3
    (by decide) (by decide) (by decide)

/-! ## Worker calculator cache (`server.py`, `_WORKER_CALC_CACHE` and helpers)

The `OrderedDict` cache is embedded as a `List K` of keys in insertion/recency
order (least-recently-used at the head, most-recently-used at the end); the
cached values play no role in the claims.  The resident-set-size measurement
`psutil.Process(...).memory_info().rss / 2**20` is an oracle
`mem : List K → Nat` giving the measured usage for the current cache
contents. -/

variable {K : Type} [DecidableEq K]

/-- Embeds `OrderedDict.move_to_end(k)`: remove `k` from its position and append it
at the most-recently-used end. -/
def moveToEnd (k : K) (c : List K) : List K :=
  c.erase k ++ [k]

/-- The loop body of `_pop_one_worker`: iterate over a snapshot of the keys;
a key equal to `protected_key` is moved to the MRU end and skipped; the first
other key is popped from the cache and the function returns `true`.  If the
snapshot is exhausted, return `false`. -/
def popLoop (pk : Option K) : List K → List K → List K × Bool
  | [], c => (c, false)
  | k :: rest, c =>
    if some k = pk then popLoop pk rest (moveToEnd k c)
    else (c.erase k, true)

/-- Embeds `_pop_one_worker(protected_key)`: run the loop over `list(cache.keys())`,
i.e. a snapshot equal to the current cache contents. -/
def popOneWorker (pk : Option K) (c : List K) : List K × Bool :=
  popLoop pk c c

/-- The eviction target of `_evict_until_within_limits`:
`grace = int(mem_limit_mib * 0.05)`, `target = max(mem_limit_mib - grace,
int(mem_limit_mib * 0.5))`.  The CPython float truncations are modelled by
natural division (`x * 5 / 100` and `x / 2`); no claim depends on the exact
rounding. -/
def evictTarget (memLimitMib : Nat) : Nat :=
  let grace := memLimitMib * 5 / 100
  max (memLimitMib - grace) (memLimitMib / 2)

theorem length_moveToEnd {k : K} {c : List K} (h : k ∈ c) :
    (moveToEnd k c).length = c.length := by
  unfold moveToEnd
  have := List.length_erase_of_mem h
  have hpos : 0 < c.length := List.length_pos.mpr (List.ne_nil_of_mem h)
  simp only [List.length_append, List.length_singleton]
  omega

theorem mem_moveToEnd {a k : K} {c : List K} (h : a ∈ c) :
    a ∈ moveToEnd k c := by
  unfold moveToEnd
  by_cases hak : a = k
  · subst hak
    exact List.mem_append_right _ (List.mem_singleton.mpr rfl)
  · exact List.mem_append_left _ ((List.mem_erase_of_ne hak).mpr h)

theorem popLoop_true_length (pk : Option K) :
    ∀ (snap c c1 : List K), (∀ a ∈ snap, a ∈ c) →
      popLoop pk snap c = (c1, true) → c1.length < c.length := by
  intro snap
  induction snap with
  | nil =>
    intro c c1 _ h
    simp only [popLoop, Prod.mk.injEq] at h
    exact absurd h.2 (by decide)
  | cons k rest ih =>
    intro c c1 hsub h
    by_cases hk : some k = pk
    · simp only [popLoop, hk, if_true] at h
      have hkc : k ∈ c := hsub k (List.mem_cons_self _ _)
      have hlen := length_moveToEnd hkc
      have hsub2 : ∀ a ∈ rest, a ∈ moveToEnd k c := fun a ha =>
        mem_moveToEnd (hsub a (List.mem_cons_of_mem _ ha))
      have := ih (moveToEnd k c) c1 hsub2 h
      omega
    · simp only [popLoop, hk, if_false, Prod.mk.injEq] at h
      obtain ⟨h1, -⟩ := h
      subst h1
      have hkc : k ∈ c := hsub k (List.mem_cons_self _ _)
      have := List.length_erase_of_mem hkc
      have hpos : 0 < c.length := List.length_pos.mpr (List.ne_nil_of_mem hkc)
      omega

theorem popLoop_protected_mem (p : K) :
    ∀ (snap c : List K), p ∈ c → p ∈ (popLoop (some p) snap c).1 := by
  intro snap
  induction snap with
  | nil => intro c hp; exact hp
  | cons k rest ih =>
    intro c hp
    by_cases hk : some k = some p
    · simp only [popLoop, hk, if_true]
      exact ih (moveToEnd k c) (mem_moveToEnd hp)
    · simp only [popLoop, hk, if_false]
      have hne : p ≠ k := fun h => hk (by rw [h])
      exact (List.mem_erase_of_ne hne).mpr hp

theorem popLoop_false (pk : Option K) :
    ∀ (snap c c1 : List K), popLoop pk snap c = (c1, false) →
      (∀ a ∈ snap, some a = pk) ∧ (∀ a ∈ c1, a ∈ c ∨ some a = pk) := by
  intro snap
  induction snap with
  | nil =>
    intro c c1 h
    simp only [popLoop, Prod.mk.injEq] at h
    refine ⟨by simp, ?_⟩
    rw [← h.1]
    exact fun a ha => Or.inl ha
  | cons k rest ih =>
    intro c c1 h
    by_cases hk : some k = pk
    · simp only [popLoop, hk, if_true] at h
      obtain ⟨h1, h2⟩ := ih (moveToEnd k c) c1 h
      refine ⟨?_, ?_⟩
      · intro a ha
        rcases List.mem_cons.mp ha with rfl | ha
        · exact hk
        · exact h1 a ha
      · intro a ha
        rcases h2 a ha with hmem | hpk
        · unfold moveToEnd at hmem
          rcases List.mem_append.mp hmem with hmem | hmem
          · exact Or.inl (List.mem_of_mem_erase hmem)
          · rw [List.mem_singleton.mp hmem]
            exact Or.inr hk
        · exact Or.inr hpk
    · simp only [popLoop, hk, if_false, Prod.mk.injEq] at h
      exact absurd h.2 (by decide)

/-- The eviction loop of `_evict_until_within_limits`:
`while rss > target and cache: popped = pop_one(); if not popped: break;
gc.collect(); rss = measure()`.  The measurement at each check is
`mem` applied to the current cache contents.  (The `rss is None` guard in the
source is dead code — the division always yields a float — and is omitted.)
Totality of this definition is the termination half of the spec claim: each
iteration that pops removes one entry. -/
def evictLoop (mem : List K → Nat) (target : Nat) (pk : Option K)
    (c : List K) : List K :=
  if mem c > target ∧ c ≠ [] then
    match h : popOneWorker pk c with
    | (c1, true) => evictLoop mem target pk c1
    | (c1, false) => c1
  else c
termination_by c.length
decreasing_by
  exact popLoop_true_length pk c c c1 (fun a ha => ha) h

theorem evictLoop_protected_mem (mem : List K → Nat) (target : Nat) (p : K) :
    ∀ c : List K, p ∈ c → p ∈ evictLoop mem target (some p) c := by
  intro c
  induction c using evictLoop.induct mem target (some p) with
  | case1 c hcond c1 hpop ih =>
    intro hp
    rw [evictLoop, if_pos hcond, hpop]
    exact ih (by
      have := popLoop_protected_mem p c c hp
      unfold popOneWorker at hpop
      rw [hpop] at this
      exact this)
  | case2 c hcond c1 hpop =>
    intro hp
    rw [evictLoop, if_pos hcond, hpop]
    have := popLoop_protected_mem p c c hp
    unfold popOneWorker at hpop
    rw [hpop] at this
    exact this
  | case3 c hcond =>
    intro hp
    rw [evictLoop, if_neg hcond]
    exact hp

theorem evictLoop_stops (mem : List K → Nat) (target : Nat) (pk : Option K) :
    ∀ c : List K, mem (evictLoop mem target pk c) ≤ target ∨
      (∀ a ∈ evictLoop mem target pk c, some a = pk) := by
  intro c
  induction c using evictLoop.induct mem target pk with
  | case1 c hcond c1 hpop ih =>
    rw [evictLoop, if_pos hcond, hpop]
    exact ih
  | case2 c hcond c1 hpop =>
    rw [evictLoop, if_pos hcond, hpop]
    unfold popOneWorker at hpop
    obtain ⟨hsnap, hsub⟩ := popLoop_false pk c c c1 hpop
    refine Or.inr ?_
    intro a ha
    rcases hsub a ha with hmem | hpk
    · exact hsnap a hmem
    · exact hpk
  | case3 c hcond =>
    rw [evictLoop, if_neg hcond]
    rcases Decidable.not_and_iff_or_not.mp hcond with h | h
    · exact Or.inl (by omega)
    · refine Or.inr ?_
      have : c = [] := by
        by_contra hne
        exact h hne
      subst this
      simp

/-- Claim C5: For every cache state, memory oracle and target, running the
eviction loop with `protectedKey = K` present in the cache never removes the
entry for `K` — even when it is the only entry and memory stays over budget —
and the loop (a total function, so it terminates and returns normally) stops
in a state where either the measured usage is at most the target or no
unprotected entry remains. -/
theorem evict_preserves_protected (mem : List K → Nat) (target : Nat)
    (p : K) (c : List K) (hp : p ∈ c) :
    p ∈ evictLoop mem target (some p) c ∧
    (mem (evictLoop mem target (some p) c) ≤ target ∨
      ∀ a ∈ evictLoop mem target (some p) c, a = p) := by
  refine ⟨evictLoop_protected_mem mem target p c hp, ?_⟩
  rcases evictLoop_stops mem target (some p) c with h | h
  · exact Or.inl h
  · exact Or.inr fun a ha => Option.some.inj (h a ha)

/-- Witness for C5: a single protected entry `0` with a measurement that is
always over budget; the loop keeps the entry and stops with the protected
entry as the only one left. -/
theorem evict_preserves_protected_witness :
    (0 : Nat) ∈ evictLoop (K := Nat) (fun _ => 100) 10 (some 0) [0] ∧
    (100 ≤ 10 ∨ ∀ a ∈ evictLoop (K := Nat) (fun _ => 100) 10 (some 0) [0], a = 0) := by
  have h := evict_preserves_protected (K := Nat) (fun _ => 100) 10 0 [0]
    (by decide)
  refine ⟨h.1, ?_⟩
  rcases h.2 with h2 | h2
  · have : evictLoop (K := Nat) (fun _ => 100) 10 (some 0) [0] =
        evictLoop (K := Nat) (fun _ => 100) 10 (some 0) [0] := rfl
    exact Or.inl (by simpa using h2)
  · exact Or.inr h2

/-! ## Reading the per-job core demand (`misc.py`, `get_ncores_from_input`)

The filesystem is an oracle `fs : String → Option String` from paths to file
contents (`none` models `FileNotFoundError` on `open`). -/

/-- Split a character list at every occurrence of `sep`
(the semantics of `str.split(sep)` for a one-character separator). -/
def splitOnChar (sep : Char) : List Char → List (List Char)
  | [] => [[]]
  | c :: rest =>
    match splitOnChar sep rest with
    | [] => [[]]
    | grp :: grps =>
      if c = sep then [] :: grp :: grps else (c :: grp) :: grps

/-- Models `str.strip()`: drop leading and trailing whitespace characters. -/
def trimChars (l : List Char) : List Char :=
  ((l.dropWhile Char.isWhitespace).reverse.dropWhile Char.isWhitespace).reverse

/-- Decimal digits to a natural number. -/
def digitsToNat (l : List Char) : Nat :=
  l.foldl (fun a c => a * 10 + (c.toNat - 48)) 0

/-- A nonempty all-digit character list, or `none`. -/
def parseNatChars (l : List Char) : Option Nat :=
  if l ≠ [] ∧ l.all Char.isDigit then some (digitsToNat l) else none

/-- Models `int(s)` for a stripped string: optional sign followed by decimal digits.
(Python's underscore digit grouping and non-ASCII digits are not modelled;
the job descriptors at issue contain plain decimal integers.) -/
def parsePyInt (s : String) : Option Int :=
  match s.toList with
  | '+' :: rest => (parseNatChars rest).map Int.ofNat
  | '-' :: rest => (parseNatChars rest).map (fun n => -(n : Int))
  | l => (parseNatChars l).map Int.ofNat

/-- Models `[line.split(" ")[0].strip() for line in f.readlines() if line.strip()]`:
the first space-separated token of every non-blank line, stripped. -/
def descriptorEntries (content : String) : List String :=
  (((splitOnChar '\n' content.toList).filter
      (fun l => trimChars l ≠ [])).map
    (fun l => String.mk (trimChars (l.takeWhile (fun c => c ≠ ' ')))))

/-- Result of `get_ncores_from_input`: the returned count, or the Python
exception it lets escape.  `indexError` is `lines[3]` raised by a too-short
descriptor — the function's `except ValueError` does not catch it. -/
inductive NcoresResult where
  | ok (n : Int)
  | fileNotFound (msg : String)
  | valueError (msg : String)
  | indexError
deriving DecidableEq, Repr

/-- Embeds `get_ncores_from_input(inputfile)`: open the file (missing file →
`FileNotFoundError`), collect the first token of each non-blank line, parse
entry `[3]` as `int` (`IndexError` if absent, `ValueError` if unparsable),
and reject counts below 1 with `ValueError`. -/
def get_ncores_from_input (content : Option String) (inputfile : String) :
    NcoresResult :=
  match content with
  | none => .fileNotFound ("Input file not found: " ++ inputfile)
  | some txt =>
    let lines := descriptorEntries txt
    if h : 3 < lines.length then
      match parsePyInt (lines.get ⟨3, h⟩) with
      | none => .valueError "Error reading ORCA input file"
      | some n =>
        if n < 1 then .valueError "NCores must be a positive integer."
        else .ok n
    else .indexError

/-! ## Worker job execution (`server.py`, `_run_calc_in_process`) -/

/-- Python exceptions that cross the boundaries relevant to the claims,
carrying the data the HTTP handler reads off them. -/
inductive PyExc where
  | fileNotFoundError (msg : String)
  | valueError (msg : String)
  | indexError (msg : String)
  | calculatorRuntimeException (stdout : String)
deriving DecidableEq, Repr

/-- Models `type(e).__name__`. -/
def PyExc.typeName : PyExc → String
  | .fileNotFoundError _ => "FileNotFoundError"
  | .valueError _ => "ValueError"
  | .indexError _ => "IndexError"
  | .calculatorRuntimeException _ => "CalculatorRuntimeException"

/-- Models `str(e)`.  For `CalculatorRuntimeException(stdout)` the single
constructor argument is the exception's `args`, so `str(e)` is the captured
stdout itself. -/
def PyExc.message : PyExc → String
  | .fileNotFoundError msg => msg
  | .valueError msg => msg
  | .indexError msg => msg
  | .calculatorRuntimeException stdout => stdout

/-- Models `e.stdout` when `isinstance(e, CalculatorRuntimeException)`. -/
def PyExc.stdoutAttr : PyExc → Option String
  | .calculatorRuntimeException stdout => some stdout
  | _ => none

/-- The observable behaviour of one `calc.run(**run_kwargs)` call:
`written` is everything it writes to standard output before returning or
raising; `raises = some msg` means it raises an exception (with message
`msg`) after writing. -/
structure RunBehavior where
  written : String
  raises : Option String
deriving DecidableEq, Repr

/-- Embeds `_run_calc_in_process`: look the key up in the worker cache, inserting a
new entry at the MRU end on a miss; mark it most recently used; evict down to
the memory target with the current key protected; then run the calculator
under `redirect_stdout(buf)`.  On success return `buf.getvalue()`; on an
exception raise `CalculatorRuntimeException(buf.getvalue())`.  Returns the
result together with the updated worker cache. -/
def runCalcInProcess (key : K) (mem : List K → Nat) (maxMemoryPerThread : Nat)
    (behavior : RunBehavior) (cache : List K) : Except PyExc String × List K :=
  let cache1 := if key ∈ cache then cache else cache ++ [key]
  let cache2 := moveToEnd key cache1
  let cache3 := evictLoop mem (evictTarget maxMemoryPerThread) (some key) cache2
  match behavior.raises with
  | some _ => (.error (.calculatorRuntimeException behavior.written), cache3)
  | none => (.ok behavior.written, cache3)

/-! ## Dispatcher (`server.py`, `OtoolServer.handle_client`) and HTTP layer -/

/-- Embeds `OtoolServer.parse_client_input`: an `ArgumentParser` with the required
positional `inputfile` plus calculator-defined flags.  With no argument
supplied, `argparse` calls `parser.error`, which raises `SystemExit(2)` — a
`BaseException`, not an `Exception`.  Flag handling is abstracted: the first
argument is the positional `inputfile` and the rest are returned for the
calculator parser. -/
def parseClientInput (arguments : List String) :
    Option (String × List String) :=
  match arguments with
  | [] => none
  | a :: rest => some (a, rest)

/-- Models `(Path(directory) / inputfile)`: path join for a relative
file name (`Path.resolve` symlink/absolute-path handling is not modelled). -/
def pathJoin (dir file : String) : String :=
  dir ++ "/" ++ file

/-- Events on the `CoreLimiter`, in program order. -/
inductive LimEvent where
  | acquired (n : Int)
  | released (n : Int)
deriving DecidableEq, Repr

/-- What `handle_client` produces: a success payload, a propagating Python
exception, an uncaught `SystemExit` from `argparse`, or a thread parked in
`CoreLimiter.acquire` waiting for budget. -/
inductive HandleResult where
  | ok (stdout : String)
  | exc (e : PyExc)
  | sysExit
  | blocked
deriving DecidableEq, Repr

/-- Result of `handle_client` together with the final limiter, the final
worker cache and the log of limiter events. -/
structure HandleOutput (K : Type) where
  result : HandleResult
  limiter : CoreLimiter
  cache : List K
  events : List LimEvent
deriving DecidableEq, Repr

/-- Embeds `OtoolServer.handle_client(content)`: parse the client arguments, resolve
the input file inside the working directory, read the per-job core demand
from that file, gate on the core limiter, run the job in a worker process,
and release the demand in a `finally` block on both the success and the
exception path. -/
def handleClient (fs : String → Option String) (mem : List K → Nat)
    (maxMemoryPerThread : Nat) (key : K) (behavior : RunBehavior)
    (lim : CoreLimiter) (cache : List K)
    (arguments : List String) (directory : String) : HandleOutput K :=
  match parseClientInput arguments with
  | none => ⟨.sysExit, lim, cache, []⟩
  | some (inputfile, _restArgs) =>
    let inputfilePath := pathJoin directory inputfile
    match get_ncores_from_input (fs inputfilePath) inputfilePath with
    | .fileNotFound msg => ⟨.exc (.fileNotFoundError msg), lim, cache, []⟩
    | .valueError msg => ⟨.exc (.valueError msg), lim, cache, []⟩
    | .indexError => ⟨.exc (.indexError "list index out of range"), lim, cache, []⟩
    | .ok ncoresJob =>
      match lim.acquire ncoresJob with
      | (.err, _) =>
        ⟨.exc (.valueError ("Requested " ++ toString ncoresJob ++
          " cores but only " ++ toString lim.total ++ " total available.")),
          lim, cache, []⟩
      | (.blocked, _) => ⟨.blocked, lim, cache, []⟩
      | (.ok, lim1) =>
        let r := runCalcInProcess key mem maxMemoryPerThread behavior cache
        let lim2 := lim1.release ncoresJob
        match r.1 with
        | .ok output =>
          ⟨.ok output, lim2, r.2, [.acquired ncoresJob, .released ncoresJob]⟩
        | .error e =>
          ⟨.exc e, lim2, r.2, [.acquired ncoresJob, .released ncoresJob]⟩

/-- A JSON value in a payload field, as far as the handler's `isinstance`
checks distinguish them.  Argument lists whose elements are not all strings
are not modelled (they pass the `isinstance(arguments, list)` check and fail
later inside `argparse`; no claim depends on them). -/
inductive JsonValue where
  | jstr (s : String)
  | jlist (xs : List String)
  | jother
deriving DecidableEq, Repr

/-- The decoded request body: whether `data` is a dict, and the values of
`data.get("arguments")` / `data.get("directory")` (`none` = key absent). -/
structure Payload where
  isDict : Bool
  arguments : Option JsonValue
  directory : Option JsonValue
deriving DecidableEq, Repr

/-- The JSON body written back by the `/calculate` view. -/
structure ErrResp where
  error_type : String
  error_message : String
  stdout : Option String
deriving DecidableEq, Repr

/-- What a `/calculate` request produces: a JSON response, an uncaught
`SystemExit` aborting the request, or a thread blocked waiting for cores.
(The `traceback` field of error responses is not modelled.) -/
inductive Outcome where
  | success (stdout : String)
  | error (e : ErrResp)
  | uncaughtSystemExit
  | blocked
deriving DecidableEq, Repr

/-- The `/calculate` view of `create_app`: validate that the body is a dict
with a list `arguments` and a string `directory` naming an existing
directory, delegate to `handle_client`, and convert any `Exception` into a
`status: Error` JSON body carrying `type(e).__name__`, `str(e)` and — for
`CalculatorRuntimeException` — `e.stdout`.  `SystemExit` is a
`BaseException` and is not caught by the `except Exception` handler. -/
def calculate (dirExists : String → Bool) (fs : String → Option String)
    (mem : List K → Nat) (maxMemoryPerThread : Nat) (key : K)
    (behavior : RunBehavior) (lim : CoreLimiter) (cache : List K)
    (payload : Payload) : Outcome :=
  if payload.isDict then
    match payload.arguments, payload.directory with
    | some (.jlist args), some (.jstr dir) =>
      if dirExists dir then
        let out := handleClient fs mem maxMemoryPerThread key behavior
          lim cache args dir
        match out.result with
        | .ok s => .success s
        | .sysExit => .uncaughtSystemExit
        | .blocked => .blocked
        | .exc e =>
          .error { error_type := e.typeName, error_message := e.message,
                   stdout := e.stdoutAttr }
      else
        .error { error_type := "ValueError",
                 error_message := "Invalid directory: " ++ dir, stdout := none }
    | _, _ =>
      .error { error_type := "ValueError",
               error_message := "Payload must have list 'arguments' and str 'directory'",
               stdout := none }
  else
    .error { error_type := "ValueError",
             error_message := "Invalid JSON payload", stdout := none }

/-! ## Claims about the dispatcher and HTTP layer -/

/-- Claim C3: In every `handle_client` run: a successful `acquire(coreDemand)`
is followed by exactly one `release(coreDemand)` (the event log is exactly
`[acquired n, released n]`, the release coming before the response is
produced), both on the success path and on the exception path from job
execution; and every run that fails before `acquire` — `SystemExit` from
argument parsing, and the `FileNotFoundError` / `ValueError` / `IndexError`
escapes of the core-count read, as well as the fail-fast capacity
`ValueError` — performs no limiter event and leaves `available` unchanged. -/
theorem release_exactly_once (fs : String → Option String)
    (mem : List K → Nat) (mm : Nat) (key : K) (behavior : RunBehavior)
    (lim : CoreLimiter) (cache : List K) (args : List String) (dir : String)
    (o : HandleOutput K)
    (ho : o = handleClient fs mem mm key behavior lim cache args dir) :
    (∀ n, LimEvent.acquired n ∈ o.events →
      o.events = [.acquired n, .released n]) ∧
    (o.events = [] → o.limiter = lim) ∧
    (∀ e, o.result = .exc e → (∀ w, e ≠ .calculatorRuntimeException w) →
      o.events = [] ∧ o.limiter = lim) ∧
    (o.result = .sysExit → o.events = [] ∧ o.limiter = lim) ∧
    (∀ s, o.result = .ok s → ∃ n, o.events = [.acquired n, .released n]) ∧
    (∀ w, o.result = .exc (.calculatorRuntimeException w) →
      ∃ n, o.events = [.acquired n, .released n]) := by
  subst ho
  unfold handleClient
  cases args with
  | nil => simp [parseClientInput]
  | cons a rest =>
    simp only [parseClientInput]
    cases hg : get_ncores_from_input (fs (pathJoin dir a)) (pathJoin dir a) with
    | fileNotFound msg => simp
    | valueError msg => simp
    | indexError => simp
    | ok n =>
      dsimp only
      rcases hA : lim.acquire n with ⟨oc, lim1⟩
      cases oc with
      | err => simp
      | blocked => simp
      | ok =>
        unfold runCalcInProcess
        cases hb : behavior.raises with
        | none => refine ⟨?_, ?_, ?_, ?_, ?_, ?_⟩ <;> simp
        | some msg => refine ⟨?_, ?_, ?_, ?_, ?_, ?_⟩ <;> simp

/-- Witness for C3: a server with 4 cores, a job descriptor demanding 2
cores, a backend that succeeds; the limiter log is exactly one acquire
followed by one release of the same demand. -/
theorem release_exactly_once_witness :
    (handleClient (K := Nat) (fun _ => some "a.xyz\n0\n1\n2\n") (fun _ => 0) 500 7
      ⟨"backend output", none⟩ (CoreLimiter.init 4) [] ["job.inp"] "/work").events =
    [.acquired 2, .released 2] :=
  (release_exactly_once (K := Nat) (fun _ => some "a.xyz\n0\n1\n2\n") (fun _ => 0)
    500 7 ⟨"backend output", none⟩ (CoreLimiter.init 4) [] ["job.inp"] "/work"
    _ rfl).1 2 (by decide)

/-- Claim C4: If the backend writes `behavior.written` to standard output and
then raises, the `/calculate` response is an error whose `stdout` field is
exactly the text written before the raise (and whose `error_type` is
`CalculatorRuntimeException`; its `error_message` is `str(e)`, which for this
exception class is again the captured stdout). -/
theorem stdout_preserved_on_failure (dirExists : String → Bool)
    (fs : String → Option String) (mem : List K → Nat) (mm : Nat) (key : K)
    (behavior : RunBehavior) (lim : CoreLimiter) (cache : List K)
    (args : List String) (dir a : String) (rest : List String) (n : Int)
    (msg : String)
    (hargs : args = a :: rest)
    (hdir : dirExists dir = true)
    (hn : get_ncores_from_input (fs (pathJoin dir a)) (pathJoin dir a) = .ok n)
    (hacq : (lim.acquire n).1 = .ok)
    (hraise : behavior.raises = some msg) :
    calculate dirExists fs mem mm key behavior lim cache
      ⟨true, some (.jlist args), some (.jstr dir)⟩ =
    .error { error_type := "CalculatorRuntimeException",
             error_message := behavior.written,
             stdout := some behavior.written } := by
  subst hargs
  unfold calculate handleClient
  simp only [hdir, if_true, parseClientInput]
  rw [hn]
  dsimp only
  rcases hA : lim.acquire n with ⟨oc, lim1⟩
  rw [hA] at hacq
  cases oc with
  | err => simp at hacq
  | blocked => simp at hacq
  | ok =>
    unfold runCalcInProcess
    rw [hraise]
    simp [PyExc.typeName, PyExc.message, PyExc.stdoutAttr]

/-- Witness for C4: the backend writes `"diag line"` then raises; the error
response delivers `stdout = "diag line"`. -/
theorem stdout_preserved_on_failure_witness :
    calculate (K := Nat) (fun _ => true) (fun _ => some "a.xyz\n0\n1\n2\n")
      (fun _ => 0) 500 7 ⟨"diag line", some "boom"⟩ (CoreLimiter.init 4) []
      ⟨true, some (.jlist ["job.inp"]), some (.jstr "/work")⟩ =
    .error { error_type := "CalculatorRuntimeException",
             error_message := "diag line", stdout := some "diag line" } :=
  stdout_preserved_on_failure (K := Nat) (fun _ => true)
    (fun _ => some "a.xyz\n0\n1\n2\n") (fun _ => 0) 500 7
    ⟨"diag line", some "boom"⟩ (CoreLimiter.init 4) [] ["job.inp"] "/work"
    "job.inp" [] 2 "boom" rfl rfl (by decide) (by decide) rfl

/-- Claim C9: A descriptor with fewer than four non-empty lines makes
`get_ncores_from_input` raise `IndexError` at `lines[3]`: the function's own
`except ValueError` (and the `except FileNotFoundError` around `open`) do not
catch it, so it escapes as a raw `IndexError` — reaching the dispatcher as
`PyExc.indexError`, not as one of the `FileNotFoundError`/`ValueError`
admission errors. -/
theorem short_descriptor_index_error (txt f : String)
    (hshort : (descriptorEntries txt).length < 4) :
    get_ncores_from_input (some txt) f = .indexError ∧
    (∀ msg, NcoresResult.indexError ≠ NcoresResult.fileNotFound msg) ∧
    (∀ msg, NcoresResult.indexError ≠ NcoresResult.valueError msg) ∧
    (∀ (fs : String → Option String) (mem : List Nat → Nat) (mm : Nat)
        (key : Nat) (behavior : RunBehavior) (lim : CoreLimiter)
        (cache : List Nat) (a dir : String) (rest : List String),
      fs (pathJoin dir a) = some txt →
      (handleClient fs mem mm key behavior lim cache (a :: rest) dir).result =
        .exc (.indexError "list index out of range")) := by
  have hg : get_ncores_from_input (some txt) f = .indexError := by
    unfold get_ncores_from_input
    have h4 : ¬ 3 < (descriptorEntries txt).length := by omega
    simp [h4]
  refine ⟨hg, by simp, by simp, ?_⟩
  intro fs mem mm key behavior lim cache a dir rest hfs
  unfold handleClient
  simp only [parseClientInput]
  rw [hfs]
  have hg2 : get_ncores_from_input (some txt) (pathJoin dir a) = .indexError := by
    unfold get_ncores_from_input
    have h4 : ¬ 3 < (descriptorEntries txt).length := by omega
    simp [h4]
  rw [hg2]

/-- Witness for C9: the three-line descriptor `"a\nb\nc\n"`. -/
theorem short_descriptor_index_error_witness :
    get_ncores_from_input (some "a\nb\nc\n") "p" = .indexError ∧
    (∀ msg, NcoresResult.indexError ≠ NcoresResult.fileNotFound msg) ∧
    (∀ msg, NcoresResult.indexError ≠ NcoresResult.valueError msg) ∧
    (∀ (fs : String → Option String) (mem : List Nat → Nat) (mm : Nat)
        (key : Nat) (behavior : RunBehavior) (lim : CoreLimiter)
        (cache : List Nat) (a dir : String) (rest : List String),
      fs (pathJoin dir a) = some "a\nb\nc\n" →
      (handleClient fs mem mm key behavior lim cache (a :: rest) dir).result =
        .exc (.indexError "list index out of range")) :=
  short_descriptor_index_error "a\nb\nc\n" "p" (by decide)

/-- Claim C8: The demand handed to `CoreLimiter.acquire` is always the integer
read from the job descriptor at `workingDirectory/arguments[0]` — never a
value of the transport payload, which carries no core-count field at all:
every `acquired m` event implies `get_ncores_from_input` returned `m` for the
file at `pathJoin dir arguments[0]`.  Reading fails with an exception before
any acquire when the file is missing (`FileNotFoundError`), when the
descriptor's fourth non-empty line does not parse as an integer
(`ValueError`), and when the parsed value is below 1 (`ValueError`). -/
theorem core_demand_from_input_file (fs : String → Option String)
    (mem : List K → Nat) (mm : Nat) (key : K) (behavior : RunBehavior)
    (lim : CoreLimiter) (cache : List K) (args : List String) (dir : String) :
    (∀ m, LimEvent.acquired m ∈
        (handleClient fs mem mm key behavior lim cache args dir).events →
      ∃ a rest, args = a :: rest ∧
        get_ncores_from_input (fs (pathJoin dir a)) (pathJoin dir a) = .ok m) ∧
    (∀ a rest, args = a :: rest → fs (pathJoin dir a) = none →
      (handleClient fs mem mm key behavior lim cache args dir).result =
        .exc (.fileNotFoundError ("Input file not found: " ++ pathJoin dir a))) ∧
    (∀ a rest txt, args = a :: rest → fs (pathJoin dir a) = some txt →
      ∀ h : 3 < (descriptorEntries txt).length,
      parsePyInt ((descriptorEntries txt).get ⟨3, h⟩) = none →
      (handleClient fs mem mm key behavior lim cache args dir).result =
        .exc (.valueError "Error reading ORCA input file")) ∧
    (∀ a rest txt n, args = a :: rest → fs (pathJoin dir a) = some txt →
      ∀ h : 3 < (descriptorEntries txt).length,
      parsePyInt ((descriptorEntries txt).get ⟨3, h⟩) = some n → n < 1 →
      (handleClient fs mem mm key behavior lim cache args dir).result =
        .exc (.valueError "NCores must be a positive integer.")) := by
  refine ⟨?_, ?_, ?_, ?_⟩
  · intro m hm
    unfold handleClient at hm
    cases args with
    | nil => simp [parseClientInput] at hm
    | cons a rest =>
      simp only [parseClientInput] at hm
      refine ⟨a, rest, rfl, ?_⟩
      cases hg : get_ncores_from_input (fs (pathJoin dir a)) (pathJoin dir a) with
      | fileNotFound msg => rw [hg] at hm; simp at hm
      | valueError msg => rw [hg] at hm; simp at hm
      | indexError => rw [hg] at hm; simp at hm
      | ok n =>
        rw [hg] at hm
        dsimp only at hm
        rcases hA : lim.acquire n with ⟨oc, lim1⟩
        rw [hA] at hm
        cases oc with
        | err => simp at hm
        | blocked => simp at hm
        | ok =>
          cases hr : (runCalcInProcess key mem mm behavior cache).1 with
          | ok output =>
            rw [hr] at hm
            simp only [List.mem_cons, List.not_mem_nil, or_false,
              LimEvent.acquired.injEq, reduceCtorEq] at hm
            rw [hm]
          | error e =>
            rw [hr] at hm
            simp only [List.mem_cons, List.not_mem_nil, or_false,
              LimEvent.acquired.injEq, reduceCtorEq] at hm
            rw [hm]
  · intro a rest hargs hmiss
    subst hargs
    unfold handleClient
    simp only [parseClientInput]
    rw [hmiss]
    unfold get_ncores_from_input
    rfl
  · intro a rest txt hargs hfs h hparse
    subst hargs
    unfold handleClient
    simp only [parseClientInput]
    rw [hfs]
    unfold get_ncores_from_input
    simp only [h, dif_pos]
    rw [hparse]
  · intro a rest txt n hargs hfs h hparse hlt
    subst hargs
    unfold handleClient
    simp only [parseClientInput]
    rw [hfs]
    unfold get_ncores_from_input
    simp only [h, dif_pos]
    rw [hparse]
    simp [hlt]

/-- Witness for C8: descriptor demanding 3 cores; the acquire event carries
exactly the file's value; a missing file, a non-integer fourth line and a
zero count each fail with the stated exception. -/
theorem core_demand_from_input_file_witness :
    (∃ a rest, ["job.inp"] = a :: rest ∧
      get_ncores_from_input ((fun _ => some "a.xyz\n0\n1\n3\n") (pathJoin "/w" a))
        (pathJoin "/w" a) = .ok 3) ∧
    ((handleClient (K := Nat) (fun _ => none) (fun _ => 0) 500 7 ⟨"", none⟩
        (CoreLimiter.init 4) [] ["job.inp"] "/w").result =
      .exc (.fileNotFoundError ("Input file not found: " ++ pathJoin "/w" "job.inp"))) ∧
    ((handleClient (K := Nat) (fun _ => some "a\nb\nc\nnope\n") (fun _ => 0) 500 7
        ⟨"", none⟩ (CoreLimiter.init 4) [] ["job.inp"] "/w").result =
      .exc (.valueError "Error reading ORCA input file")) ∧
    ((handleClient (K := Nat) (fun _ => some "a\nb\nc\n0\n") (fun _ => 0) 500 7
        ⟨"", none⟩ (CoreLimiter.init 4) [] ["job.inp"] "/w").result =
      .exc (.valueError "NCores must be a positive integer.")) := by
  refine ⟨?_, ?_, ?_, ?_⟩
  · exact (core_demand_from_input_file (K := Nat)
      (fun _ => some "a.xyz\n0\n1\n3\n") (fun _ => 0) 500 7 ⟨"", none⟩
      (CoreLimiter.init 4) [] ["job.inp"] "/w").1 3 (by decide)
  · exact (core_demand_from_input_file (K := Nat) (fun _ => none) (fun _ => 0)
      500 7 ⟨"", none⟩ (CoreLimiter.init 4) [] ["job.inp"] "/w").2.1
      "job.inp" [] rfl rfl
  · exact (core_demand_from_input_file (K := Nat)
      (fun _ => some "a\nb\nc\nnope\n") (fun _ => 0) 500 7 ⟨"", none⟩
      (CoreLimiter.init 4) [] ["job.inp"] "/w").2.2.1
      "job.inp" [] "a\nb\nc\nnope\n" rfl rfl (by decide) (by decide)
  · exact (core_demand_from_input_file (K := Nat)
      (fun _ => some "a\nb\nc\n0\n") (fun _ => 0) 500 7 ⟨"", none⟩
      (CoreLimiter.init 4) [] ["job.inp"] "/w").2.2.2
      "job.inp" [] "a\nb\nc\n0\n" 0 rfl rfl (by decide) (by decide) (by decide)

/-- A payload that passes the handler's shape checks: `data` is a dict,
`arguments` is a list and `directory` is a string. -/
def Payload.wellShaped (p : Payload) : Prop :=
  p.isDict = true ∧
  ∃ xs s, p.arguments = some (.jlist xs) ∧ p.directory = some (.jstr s)

/-- The `error_type` field of an error response, if the outcome is one. -/
def Outcome.errorType : Outcome → Option String
  | .error e => some e.error_type
  | _ => none

/-- Helper: a payload failing the shape checks is answered with the
corresponding `ValueError` response. -/
theorem calculate_malformed {K : Type} [DecidableEq K] (dirExists : String → Bool)
    (fs : String → Option String) (mem : List K → Nat) (mm : Nat) (key : K)
    (behavior : RunBehavior) (lim : CoreLimiter) (cache : List K)
    (p : Payload) (hns : ¬ p.wellShaped) :
    calculate dirExists fs mem mm key behavior lim cache p =
      .error { error_type := "ValueError",
               error_message :=
                 if p.isDict then
                   "Payload must have list 'arguments' and str 'directory'"
                 else "Invalid JSON payload",
               stdout := none } := by
  rcases p with ⟨d, a?, d?⟩
  cases d with
  | false => simp [calculate]
  | true =>
    rcases a? with - | av
    · rcases d? with - | dv
      · simp [calculate]
      · rcases dv with s2 | xs2 | - <;> simp [calculate]
    · rcases av with s1 | xs1 | -
      · rcases d? with - | dv
        · simp [calculate]
        · rcases dv with s2 | xs2 | - <;> simp [calculate]
      · rcases d? with - | dv
        · simp [calculate]
        · rcases dv with s2 | xs2 | -
          · exact absurd ⟨rfl, xs1, s2, rfl, rfl⟩ hns
          · simp [calculate]
          · simp [calculate]
      · rcases d? with - | dv
        · simp [calculate]
        · rcases dv with s2 | xs2 | - <;> simp [calculate]

/-- Claim C7 counterexample: An empty `arguments` list with an otherwise valid
payload is not validated: `argparse` raises `SystemExit` for the missing
required positional `inputfile`, and since `SystemExit` is not an
`Exception`, the `except Exception` handler never produces a structured JSON
error response — the request fails unhandled. -/
theorem empty_arguments_uncaught :
    calculate (K := Nat) (fun _ => true) (fun _ => none) (fun _ => 0) 500 7
      ⟨"", none⟩ (CoreLimiter.init 4) []
      ⟨true, some (.jlist []), some (.jstr "/work")⟩ = .uncaughtSystemExit ∧
    Outcome.uncaughtSystemExit.errorType = none := by
  exact ⟨by decide, rfl⟩

/-- Claim C7 amended: The payload is validated before admission: `arguments`
must be a list and `directory` a string naming an existing directory, and a
violation of these checks is rejected with a structured JSON error response
(`status "Error"`, an `error_type` and an `error_message`).  However, an
empty `arguments` list is not validated: it escapes as an uncaught
`SystemExit` from `argparse` instead of a structured error response, while a
non-empty `arguments` list proceeds past parsing. -/
theorem payload_validation (dirExists : String → Bool)
    (fs : String → Option String) (mem : List K → Nat) (mm : Nat) (key : K)
    (behavior : RunBehavior) (lim : CoreLimiter) (cache : List K) :
    (∀ p : Payload, ¬ p.wellShaped →
      calculate dirExists fs mem mm key behavior lim cache p =
        .error { error_type := "ValueError",
                 error_message :=
                   if p.isDict then
                     "Payload must have list 'arguments' and str 'directory'"
                   else "Invalid JSON payload",
                 stdout := none }) ∧
    (∀ args dir, dirExists dir = false →
      calculate dirExists fs mem mm key behavior lim cache
        ⟨true, some (.jlist args), some (.jstr dir)⟩ =
        .error { error_type := "ValueError",
                 error_message := "Invalid directory: " ++ dir,
                 stdout := none }) ∧
    (∀ dir, dirExists dir = true →
      calculate dirExists fs mem mm key behavior lim cache
        ⟨true, some (.jlist []), some (.jstr dir)⟩ = .uncaughtSystemExit) := by
  refine ⟨?_, ?_, ?_⟩
  · exact fun p hns =>
      calculate_malformed dirExists fs mem mm key behavior lim cache p hns
  · intro args dir hdir
    simp [calculate, hdir]
  · intro dir hdir
    simp [calculate, hdir, handleClient, parseClientInput]

/-- Witness for C7 (amended): a non-dict body, a wrong-shaped body, a
missing directory, and the empty-arguments escape, all at concrete inputs. -/
theorem payload_validation_witness :
    (calculate (K := Nat) (fun d => d = "/ok") (fun _ => none) (fun _ => 0)
        500 7 ⟨"", none⟩ (CoreLimiter.init 4) [] ⟨false, none, none⟩ =
      .error { error_type := "ValueError",
               error_message := "Invalid JSON payload", stdout := none }) ∧
    (calculate (K := Nat) (fun d => d = "/ok") (fun _ => none) (fun _ => 0)
        500 7 ⟨"", none⟩ (CoreLimiter.init 4) []
        ⟨true, some (.jlist ["x"]), some (.jstr "/gone")⟩ =
      .error { error_type := "ValueError",
               error_message := "Invalid directory: /gone", stdout := none }) ∧
    (calculate (K := Nat) (fun d => d = "/ok") (fun _ => none) (fun _ => 0)
        500 7 ⟨"", none⟩ (CoreLimiter.init 4) []
        ⟨true, some (.jlist []), some (.jstr "/ok")⟩ = .uncaughtSystemExit) := by
  obtain ⟨h1, h2, h3⟩ := payload_validation (K := Nat) (fun d => d = "/ok")
    (fun _ => none) (fun _ => 0) 500 7 ⟨"", none⟩ (CoreLimiter.init 4) []
  exact ⟨h1 ⟨false, none, none⟩ (by simp [Payload.wellShaped]),
    h2 ["x"] "/gone" (by decide), h3 "/ok" (by decide)⟩

/-- Claim C6 counterexample: The four caller-visible error conditions do not
carry pairwise distinct `error_type`s: a malformed payload shape and a
nonexistent working directory (and likewise an oversized core demand) all
produce `error_type = "ValueError"` at concrete inputs. -/
theorem error_types_not_distinct :
    (calculate (K := Nat) (fun _ => true) (fun _ => none) (fun _ => 0) 500 7
        ⟨"", none⟩ (CoreLimiter.init 4) []
        ⟨true, none, some (.jstr "/w")⟩).errorType = some "ValueError" ∧
    (calculate (K := Nat) (fun _ => false) (fun _ => none) (fun _ => 0) 500 7
        ⟨"", none⟩ (CoreLimiter.init 4) []
        ⟨true, some (.jlist ["f"]), some (.jstr "/w")⟩).errorType =
      some "ValueError" ∧
    (calculate (K := Nat) (fun _ => true) (fun _ => some "a\n0\n1\n9\n")
        (fun _ => 0) 500 7 ⟨"", none⟩ (CoreLimiter.init 4) []
        ⟨true, some (.jlist ["f"]), some (.jstr "/w")⟩).errorType =
      some "ValueError" := by
  refine ⟨by decide, by decide, by decide⟩

/-- Claim C6 amended: A backend computation failure is reported with
`error_type = "CalculatorRuntimeException"`, distinct from the error type of
the three admission conditions; but malformed payload shape, nonexistent
working directory and a core demand exceeding total capacity all share
`error_type = "ValueError"` and are distinguishable only by their
`error_message`. -/
theorem error_type_taxonomy (dirExists : String → Bool)
    (fs : String → Option String) (mem : List K → Nat) (mm : Nat) (key : K)
    (behavior : RunBehavior) (lim : CoreLimiter) (cache : List K) :
    (∀ p : Payload, ¬ p.wellShaped →
      (calculate dirExists fs mem mm key behavior lim cache p).errorType =
        some "ValueError") ∧
    (∀ args dir, dirExists dir = false →
      (calculate dirExists fs mem mm key behavior lim cache
        ⟨true, some (.jlist args), some (.jstr dir)⟩).errorType =
        some "ValueError") ∧
    (∀ a rest dir n, dirExists dir = true →
      get_ncores_from_input (fs (pathJoin dir a)) (pathJoin dir a) = .ok n →
      (lim.acquire n).1 = .err →
      (calculate dirExists fs mem mm key behavior lim cache
        ⟨true, some (.jlist (a :: rest)), some (.jstr dir)⟩).errorType =
        some "ValueError") ∧
    (∀ a rest dir n msg, dirExists dir = true →
      get_ncores_from_input (fs (pathJoin dir a)) (pathJoin dir a) = .ok n →
      (lim.acquire n).1 = .ok → behavior.raises = some msg →
      (calculate dirExists fs mem mm key behavior lim cache
        ⟨true, some (.jlist (a :: rest)), some (.jstr dir)⟩).errorType =
        some "CalculatorRuntimeException") ∧
    ("CalculatorRuntimeException" : String) ≠ "ValueError" := by
  refine ⟨?_, ?_, ?_, ?_, by decide⟩
  · intro p hns
    rw [calculate_malformed dirExists fs mem mm key behavior lim cache p hns]
    rfl
  · intro args dir hdir
    simp [calculate, hdir, Outcome.errorType]
  · intro a rest dir n hdir hn hacq
    unfold calculate handleClient
    simp only [hdir, if_true, parseClientInput]
    rw [hn]
    dsimp only
    rcases hA : lim.acquire n with ⟨oc, lim1⟩
    rw [hA] at hacq
    cases oc with
    | ok => simp at hacq
    | blocked => simp at hacq
    | err => simp [PyExc.typeName, Outcome.errorType]
  · intro a rest dir n msg hdir hn hacq hraise
    unfold calculate handleClient
    simp only [hdir, if_true, parseClientInput]
    rw [hn]
    dsimp only
    rcases hA : lim.acquire n with ⟨oc, lim1⟩
    rw [hA] at hacq
    cases oc with
    | err => simp at hacq
    | blocked => simp at hacq
    | ok =>
      unfold runCalcInProcess
      rw [hraise]
      simp [PyExc.typeName, Outcome.errorType]

/-- Witness for C6 (amended): each of the four conditions at a concrete
input, showing the shared `"ValueError"` and the distinct
`"CalculatorRuntimeException"`. -/
theorem error_type_taxonomy_witness :
    ((calculate (K := Nat) (fun d => d = "/ok") (fun _ => some "a\n0\n1\n9\n")
        (fun _ => 0) 500 7 ⟨"oops", some "x"⟩ (CoreLimiter.init 4) []
        ⟨true, none, none⟩).errorType = some "ValueError") ∧
    ((calculate (K := Nat) (fun d => d = "/ok") (fun _ => some "a\n0\n1\n9\n")
        (fun _ => 0) 500 7 ⟨"oops", some "x"⟩ (CoreLimiter.init 4) []
        ⟨true, some (.jlist ["f"]), some (.jstr "/gone")⟩).errorType =
      some "ValueError") ∧
    ((calculate (K := Nat) (fun d => d = "/ok") (fun _ => some "a\n0\n1\n9\n")
        (fun _ => 0) 500 7 ⟨"oops", some "x"⟩ (CoreLimiter.init 4) []
        ⟨true, some (.jlist ["f"]), some (.jstr "/ok")⟩).errorType =
      some "ValueError") ∧
    ((calculate (K := Nat) (fun d => d = "/ok") (fun _ => some "a\n0\n1\n2\n")
        (fun _ => 0) 500 7 ⟨"oops", some "x"⟩ (CoreLimiter.init 4) []
        ⟨true, some (.jlist ["f"]), some (.jstr "/ok")⟩).errorType =
      some "CalculatorRuntimeException") := by
  obtain ⟨h1, h2, h3, h4, -⟩ := error_type_taxonomy (K := Nat)
    (fun d => d = "/ok") (fun _ => some "a\n0\n1\n9\n") (fun _ => 0) 500 7
    ⟨"oops", some "x"⟩ (CoreLimiter.init 4) []
  obtain ⟨-, -, -, h4b, -⟩ := error_type_taxonomy (K := Nat)
    (fun d => d = "/ok") (fun _ => some "a\n0\n1\n2\n") (fun _ => 0) 500 7
    ⟨"oops", some "x"⟩ (CoreLimiter.init 4) []
  refine ⟨h1 ⟨true, none, none⟩ (by simp [Payload.wellShaped]),
    h2 ["f"] "/gone" (by decide),
    h3 "f" [] "/ok" 9 (by decide) (by decide) (by decide),
    h4b "f" [] "/ok" 2 "x" (by decide) (by decide) (by decide) rfl⟩

end Oet
